import Mathlib

/-!
Shallow embedding of `src/safety_controller.py` (class `SafetyController`).

Range samples of a LIDAR sweep are floating-point values that may be the
sentinels `inf` or `nan`; we model a sample as `RVal` (finite values as
rationals).  Threshold parameters live in `ℝ` because the danger threshold
`INTERCEPT + MULTIPLIER * EXPONENT ** speed` uses real exponentiation.
`np.min` over a window is modelled by `npMin`; its value is `none` exactly
when the window is empty, where the Python call raises `ValueError`
(zero-size reduction has no identity).
-/

/-- One LIDAR range sample as a float: a finite (rational) value, positive
infinity, or not-a-number. -/
inductive RVal where
  | fin (q : ℚ)
  | inf
  | nan
  deriving DecidableEq

/-- Binary float minimum exactly as `np.minimum` computes it: `nan`
propagates, `inf` is never below any other sample, finite values compare
as rationals. -/
def minR : RVal → RVal → RVal
  | RVal.nan, _ => RVal.nan
  | _, RVal.nan => RVal.nan
  | RVal.inf, y => y
  | x, RVal.inf => x
  | RVal.fin a, RVal.fin b => RVal.fin (min a b)

/-- Reduction of a list of samples by `np.min` (line 79 of the source).
`none` models the `ValueError` that `np.min` raises on a zero-size array. -/
def npMin : List RVal → Option RVal
  | [] => none
  | x :: xs => some (xs.foldl minR x)

/-- A `sensor_msgs/LaserScan` message restricted to the fields the
controller reads or writes: the range samples, the three angular fields,
and the capture timestamp. -/
structure ScanFrame where
  ranges : List RVal
  angle_min : ℚ
  angle_max : ℚ
  angle_increment : ℚ
  stamp : ℚ
  deriving DecidableEq

/-- The `drive` part of an `AckermannDriveStamped` message, fields in the
order `stop_car` assigns them (lines 114-118).  `speed` is optional because
`on_drive_command` checks `drive_command.drive.speed != None`. -/
structure AckermannDrive where
  steering_angle : ℚ
  steering_angle_velocity : ℚ
  speed : Option ℚ
  acceleration : ℚ
  jerk : ℚ
  deriving DecidableEq

/-- An `AckermannDriveStamped` message: header stamp, header frame id, and
the drive command. -/
structure AckermannDriveStamped where
  stamp : ℚ
  frame_id : String
  drive : AckermannDrive
  deriving DecidableEq

/-- The class-level configuration of `SafetyController` (lines 21-29),
loaded once from the parameter server: window indices, the three threshold
constants, and the testing parameters. -/
structure Config where
  SCAN_STARTING_INDEX : ℕ
  SCAN_ENDING_INDEX : ℕ
  INTERCEPT : ℝ
  MULTIPLIER : ℝ
  EXPONENT : ℝ
  TESTING_VELOCITY : ℚ
  IS_TESTING : Bool

/-- The mutable controller state (lines 32-33): the last observed drive
command and the last observed drive speed. -/
structure ControllerState where
  last_drive_command : Option AckermannDriveStamped
  last_drive_speed : ℚ
  deriving DecidableEq

/-- Initial state: `last_drive_command = None`, `last_drive_speed = 1`
(lines 32-33). -/
def initState : ControllerState :=
  { last_drive_command := none, last_drive_speed := 1 }

/-- Lines 57-61, `on_drive_command`: when the incoming command is present
and its speed is present, both state fields are overwritten from it;
otherwise the state is untouched.  The second component is the list of
messages this handler publishes, which is always empty: the body contains
no publish call. -/
def on_drive_command (st : ControllerState)
    (drive_command : Option AckermannDriveStamped) :
    ControllerState × List AckermannDriveStamped :=
  match drive_command with
  | some dc =>
    match dc.drive.speed with
    | some s => ({ last_drive_command := some dc, last_drive_speed := s }, [])
    | none => (st, [])
  | none => (st, [])

/-- Lines 92-103, `get_collision_zone_data`: slice `ranges[start:end]`
(Python slicing of non-negative indices is drop-then-take) and recompute
both angle bounds from the saved original `angle_min`; `angle_increment`
and the header are untouched. -/
def get_collision_zone_data (cfg : Config) (lidar_data : ScanFrame) : ScanFrame :=
  { ranges := (lidar_data.ranges.drop cfg.SCAN_STARTING_INDEX).take
      (cfg.SCAN_ENDING_INDEX - cfg.SCAN_STARTING_INDEX)
    angle_min := lidar_data.angle_min +
      lidar_data.angle_increment * (cfg.SCAN_STARTING_INDEX : ℚ)
    angle_max := lidar_data.angle_min +
      lidar_data.angle_increment * ((cfg.SCAN_ENDING_INDEX : ℚ) - 1)
    angle_increment := lidar_data.angle_increment
    stamp := lidar_data.stamp }

/-- In the Python source `get_collision_zone_data` assigns to the fields of
its argument (`lidar_data.ranges = ...`) and returns that same object, so
after the call the caller's frame is the very frame the function returned:
this definition is the state of the caller's frame once the call ends. -/
def callerFrameAfterExtract (cfg : Config) (f : ScanFrame) : ScanFrame :=
  get_collision_zone_data cfg f

/-- The windowed range list the sweep handler reduces (line 72 reads
`collision_zone_data.ranges`). -/
def windowRanges (cfg : Config) (f : ScanFrame) : List RVal :=
  (get_collision_zone_data cfg f).ranges

/-- Line 79: `min = np.min(collision_zone_distances)`.  `none` means the
call raised and the rest of the handler never ran. -/
def minClearance (cfg : Config) (f : ScanFrame) : Option RVal :=
  npMin (windowRanges cfg f)

/-- The sweep handler aborts with a `ValueError` from `np.min` exactly when
the window slice is empty. -/
def scanRaises (cfg : Config) (f : ScanFrame) : Prop :=
  minClearance cfg f = none

/-- The danger-threshold curve of line 88:
`INTERCEPT + MULTIPLIER * EXPONENT ** v` with real exponentiation. -/
noncomputable def threshold (cfg : Config) (v : ℝ) : ℝ :=
  cfg.INTERCEPT + cfg.MULTIPLIER * cfg.EXPONENT ^ v

/-- Float comparison `m <= t` between a sample value and a finite real
threshold: `inf <= t` and `nan <= t` are both false. -/
def rLE : RVal → ℝ → Prop
  | RVal.fin q, t => (q : ℝ) ≤ t
  | RVal.inf, _ => False
  | RVal.nan, _ => False

/-- Line 88: the guard of the collision check.  `stop_car` runs exactly
when `np.min` returned a value `m` (no `ValueError`), the tracked speed is
strictly positive, and `m <= threshold(speed)` under float comparison. -/
def brakes (cfg : Config) (st : ControllerState) (f : ScanFrame) : Prop :=
  ∃ m, minClearance cfg f = some m ∧
    0 < st.last_drive_speed ∧ rLE m (threshold cfg (st.last_drive_speed : ℝ))

/-- Lines 105-121, `stop_car`: the message published to the safety drive
topic, built fresh with the current time, frame id `"world"`, and the
fields assigned on lines 114-118 (`speed = -0.1`, all other drive fields
zero). -/
def stop_car (now : ℚ) : AckermannDriveStamped :=
  { stamp := now
    frame_id := "world"
    drive :=
      { steering_angle := 0
        steering_angle_velocity := 0
        speed := some (-(1 / 10))
        acceleration := 0
        jerk := 0 } }

/-- Lines 123-139, `drive_car`: the diagnostic forward command published to
the navigation topic in testing mode, at the configured test velocity. -/
def drive_car (cfg : Config) (now : ℚ) : AckermannDriveStamped :=
  { stamp := now
    frame_id := "world"
    drive :=
      { steering_angle := 0
        steering_angle_velocity := 0
        speed := some cfg.TESTING_VELOCITY
        acceleration := 0
        jerk := 0 } }

/-- One message leaving the sweep handler `on_lidar_scan`, tagged by its
destination: the laser-projection topic (line 76), the data-logger topic
(line 84), the testing navigation topic (line 85 via `drive_car`), or the
safety override topic (line 90 via `stop_car`). -/
inductive OutputEvent where
  | projection (zone : ScanFrame)
  | telemetry (v : RVal)
  | testDrive (msg : AckermannDriveStamped)
  | override (msg : AckermannDriveStamped)

/-- The publication relation of one run of `on_lidar_scan` (lines 64-90):
the projection of the windowed frame always goes out (it precedes the
`np.min` call); telemetry and the diagnostic drive go out when testing is
on and `np.min` returned; the override goes out exactly when the line-88
guard fires, and it is the message `stop_car` builds. -/
def publishes (cfg : Config) (st : ControllerState) (f : ScanFrame)
    (now : ℚ) : OutputEvent → Prop
  | OutputEvent.projection z => z = get_collision_zone_data cfg f
  | OutputEvent.telemetry v => cfg.IS_TESTING = true ∧ minClearance cfg f = some v
  | OutputEvent.testDrive m =>
      cfg.IS_TESTING = true ∧ (minClearance cfg f).isSome ∧ m = drive_car cfg now
  | OutputEvent.override m => brakes cfg st f ∧ m = stop_car now

/-- The sweep handler emits an override stop command. -/
def emitsOverride (cfg : Config) (st : ControllerState) (f : ScanFrame)
    (now : ℚ) : Prop :=
  ∃ m, publishes cfg st f now (OutputEvent.override m)

/-- One incoming message for the controller: a drive command on the
subscribed command topic or a LIDAR sweep. -/
inductive Event where
  | driveCmd (cmd : Option AckermannDriveStamped)
  | lidarScan (f : ScanFrame)

/-- Effect of one incoming message on the controller state:
`on_drive_command` may overwrite the two state fields; `on_lidar_scan`
never assigns to `self.last_drive_command` or `self.last_drive_speed`. -/
def applyEvent (st : ControllerState) : Event → ControllerState
  | Event.driveCmd c => (on_drive_command st c).1
  | Event.lidarScan _ => st

/-- Controller state after a sequence of incoming messages, starting from
the class-level initial state. -/
def runEvents (evs : List Event) : ControllerState :=
  evs.foldl applyEvent initState

/-- Concrete configuration with window `[0, 2)` and inert threshold
constants, for evaluating the window and minimum on small frames. -/
def cfgSmall : Config :=
  { SCAN_STARTING_INDEX := 0, SCAN_ENDING_INDEX := 2, INTERCEPT := 0,
    MULTIPLIER := 0, EXPONENT := 2, TESTING_VELOCITY := 0, IS_TESTING := false }

/-- Concrete configuration with window `[1, 2)`: its slice of a
single-sample sweep is empty. -/
def cfgShift : Config :=
  { SCAN_STARTING_INDEX := 1, SCAN_ENDING_INDEX := 2, INTERCEPT := 0,
    MULTIPLIER := 0, EXPONENT := 2, TESTING_VELOCITY := 0, IS_TESTING := false }

/-- Concrete configuration with window `[0, 1)` and threshold curve
`0 + 1 * 2 ^ v`, which a clearance of 1 m at speed 1 m/s falls below. -/
def cfgBrake : Config :=
  { SCAN_STARTING_INDEX := 0, SCAN_ENDING_INDEX := 1, INTERCEPT := 0,
    MULTIPLIER := 1, EXPONENT := 2, TESTING_VELOCITY := 0, IS_TESTING := false }

/-- Concrete frame whose samples are a finite 2 m reading followed by a
not-a-number sentinel. -/
def frameNan : ScanFrame :=
  { ranges := [RVal.fin 2, RVal.nan], angle_min := 0, angle_max := 1,
    angle_increment := 1, stamp := 0 }

/-- Concrete frame with two finite samples, 3 m then 2 m. -/
def frameTwo : ScanFrame :=
  { ranges := [RVal.fin 3, RVal.fin 2], angle_min := 0, angle_max := 1,
    angle_increment := 1, stamp := 0 }

/-- Concrete frame with a single finite 1 m sample. -/
def frameOne : ScanFrame :=
  { ranges := [RVal.fin 1], angle_min := 0, angle_max := 0,
    angle_increment := 1, stamp := 0 }

/-- Concrete frame whose two samples are both the infinity sentinel. -/
def frameInf : ScanFrame :=
  { ranges := [RVal.inf, RVal.inf], angle_min := 0, angle_max := 1,
    angle_increment := 1, stamp := 0 }

/-- Concrete drive command with a defined speed of 3 m/s. -/
def cmdThree : AckermannDriveStamped :=
  { stamp := 0, frame_id := "w",
    drive :=
      { steering_angle := 0, steering_angle_velocity := 0, speed := some 3,
        acceleration := 0, jerk := 0 } }

theorem minR_nan_left (y : RVal) : minR RVal.nan y = RVal.nan := by
  cases y <;> rfl

theorem minR_nan_right (x : RVal) : minR x RVal.nan = RVal.nan := by
  cases x <;> rfl

theorem minR_inf_left (y : RVal) : minR RVal.inf y = y := by
  cases y <;> rfl

theorem minR_fin_inf (a : ℚ) : minR (RVal.fin a) RVal.inf = RVal.fin a := rfl

theorem minR_fin_fin (a b : ℚ) :
    minR (RVal.fin a) (RVal.fin b) = RVal.fin (min a b) := rfl

theorem foldl_minR_nan (xs : List RVal) :
    xs.foldl minR RVal.nan = RVal.nan := by
  induction xs with
  | nil => rfl
  | cons x xs ih => rw [List.foldl_cons, minR_nan_left]; exact ih

theorem foldl_minR_mem_nan (xs : List RVal) (x : RVal) (h : RVal.nan ∈ xs) :
    xs.foldl minR x = RVal.nan := by
  induction xs generalizing x with
  | nil => cases h
  | cons y ys ih =>
    rcases List.mem_cons.mp h with hy | hy
    · rw [List.foldl_cons, ← hy, minR_nan_right]
      exact foldl_minR_nan ys
    · rw [List.foldl_cons]
      exact ih (minR x y) hy

theorem foldl_minR_fin (xs : List RVal) (q : ℚ) (hnan : RVal.nan ∉ xs) :
    ∃ m, xs.foldl minR (RVal.fin q) = RVal.fin m ∧ m ≤ q ∧
      (m = q ∨ RVal.fin m ∈ xs) ∧ ∀ p, RVal.fin p ∈ xs → m ≤ p := by
  induction xs generalizing q with
  | nil => exact ⟨q, rfl, le_refl q, Or.inl rfl, by simp⟩
  | cons x xs ih =>
    have hnx : RVal.nan ∉ xs := fun h => hnan (List.mem_cons_of_mem _ h)
    cases x with
    | fin b =>
      obtain ⟨m, hf, hle, hmem, hall⟩ := ih (min q b) hnx
      refine ⟨m, ?_, hle.trans (min_le_left _ _), ?_, ?_⟩
      · rw [List.foldl_cons, minR_fin_fin]; exact hf
      · rcases hmem with heq | hm
        · rcases min_choice q b with hc | hc
          · exact Or.inl (heq.trans hc)
          · exact Or.inr (by rw [heq, hc]; exact List.mem_cons_self _ _)
        · exact Or.inr (List.mem_cons_of_mem _ hm)
      · intro p hp
        rcases List.mem_cons.mp hp with hp1 | hp2
        · have hpb : p = b := by injection hp1
          exact hpb ▸ (hle.trans (min_le_right _ _))
        · exact hall p hp2
    | inf =>
      obtain ⟨m, hf, hle, hmem, hall⟩ := ih q hnx
      refine ⟨m, ?_, hle, ?_, ?_⟩
      · rw [List.foldl_cons, minR_fin_inf]; exact hf
      · rcases hmem with heq | hm
        · exact Or.inl heq
        · exact Or.inr (List.mem_cons_of_mem _ hm)
      · intro p hp
        rcases List.mem_cons.mp hp with hp1 | hp2
        · exact absurd hp1 (by simp)
        · exact hall p hp2
    | nan => exact absurd (List.mem_cons_self _ _) hnan

theorem foldl_minR_inf (xs : List RVal) (hnan : RVal.nan ∉ xs) :
    (xs.foldl minR RVal.inf = RVal.inf ∧ ∀ p : ℚ, RVal.fin p ∉ xs) ∨
    (∃ m, xs.foldl minR RVal.inf = RVal.fin m ∧ RVal.fin m ∈ xs ∧
      ∀ p, RVal.fin p ∈ xs → m ≤ p) := by
  induction xs with
  | nil => exact Or.inl ⟨rfl, by simp⟩
  | cons x xs ih =>
    have hnx : RVal.nan ∉ xs := fun h => hnan (List.mem_cons_of_mem _ h)
    cases x with
    | fin b =>
      obtain ⟨m, hf, hle, hmem, hall⟩ := foldl_minR_fin xs b hnx
      refine Or.inr ⟨m, ?_, ?_, ?_⟩
      · rw [List.foldl_cons, minR_inf_left]; exact hf
      · rcases hmem with heq | hm
        · exact heq ▸ List.mem_cons_self _ _
        · exact List.mem_cons_of_mem _ hm
      · intro p hp
        rcases List.mem_cons.mp hp with hp1 | hp2
        · have hpb : p = b := by injection hp1
          exact hpb ▸ hle
        · exact hall p hp2
    | inf =>
      rcases ih hnx with ⟨h1, h2⟩ | ⟨m, hf, hm, hall⟩
      · refine Or.inl ⟨?_, ?_⟩
        · rw [List.foldl_cons, minR_inf_left]; exact h1
        · intro p hp
          rcases List.mem_cons.mp hp with hp1 | hp2
          · exact absurd hp1 (by simp)
          · exact h2 p hp2
      · refine Or.inr ⟨m, ?_, List.mem_cons_of_mem _ hm, ?_⟩
        · rw [List.foldl_cons, minR_inf_left]; exact hf
        · intro p hp
          rcases List.mem_cons.mp hp with hp1 | hp2
          · exact absurd hp1 (by simp)
          · exact hall p hp2
    | nan => exact absurd (List.mem_cons_self _ _) hnan

theorem npMin_finite (l : List RVal) (hnan : RVal.nan ∉ l) (q : ℚ)
    (hq : RVal.fin q ∈ l) :
    ∃ m, npMin l = some (RVal.fin m) ∧ RVal.fin m ∈ l ∧
      ∀ p, RVal.fin p ∈ l → m ≤ p := by
  cases l with
  | nil => cases hq
  | cons x xs =>
    have hnx : RVal.nan ∉ xs := fun h => hnan (List.mem_cons_of_mem _ h)
    cases x with
    | fin b =>
      obtain ⟨m, hf, hle, hmem, hall⟩ := foldl_minR_fin xs b hnx
      refine ⟨m, congrArg some hf, ?_, ?_⟩
      · rcases hmem with heq | hm
        · exact heq ▸ List.mem_cons_self _ _
        · exact List.mem_cons_of_mem _ hm
      · intro p hp
        rcases List.mem_cons.mp hp with hp1 | hp2
        · have hpb : p = b := by injection hp1
          exact hpb ▸ hle
        · exact hall p hp2
    | inf =>
      rcases foldl_minR_inf xs hnx with ⟨h1, h2⟩ | ⟨m, hf, hm, hall⟩
      · rcases List.mem_cons.mp hq with hq1 | hq2
        · exact absurd hq1 (by simp)
        · exact absurd hq2 (h2 q)
      · refine ⟨m, congrArg some hf, List.mem_cons_of_mem _ hm, ?_⟩
        intro p hp
        rcases List.mem_cons.mp hp with hp1 | hp2
        · exact absurd hp1 (by simp)
        · exact hall p hp2
    | nan => exact absurd (List.mem_cons_self _ _) hnan

theorem npMin_sentinel (l : List RVal) (hne : l ≠ [])
    (hs : ∀ r ∈ l, r = RVal.inf ∨ r = RVal.nan) :
    ∃ m, npMin l = some m ∧ (m = RVal.inf ∨ m = RVal.nan) := by
  cases l with
  | nil => exact absurd rfl hne
  | cons x xs =>
    by_cases hnn : RVal.nan ∈ x :: xs
    · rcases List.mem_cons.mp hnn with hx | hx
      · refine ⟨RVal.nan, ?_, Or.inr rfl⟩
        show some (xs.foldl minR x) = _
        rw [← hx, foldl_minR_nan]
      · exact ⟨RVal.nan, congrArg some (foldl_minR_mem_nan xs x hx), Or.inr rfl⟩
    · have hnx : RVal.nan ∉ xs := fun h => hnn (List.mem_cons_of_mem _ h)
      have hxinf : x = RVal.inf := by
        rcases hs x (List.mem_cons_self _ _) with h | h
        · exact h
        · exact absurd (h ▸ List.mem_cons_self _ _) hnn
      rcases foldl_minR_inf xs hnx with ⟨h1, _⟩ | ⟨m, _, hm, _⟩
      · refine ⟨RVal.inf, ?_, Or.inl rfl⟩
        show some (xs.foldl minR x) = _
        rw [hxinf, h1]
      · rcases hs (RVal.fin m) (List.mem_cons_of_mem _ hm) with h | h
        · exact absurd h (by simp)
        · exact absurd h (by simp)

theorem npMin_all_inf (l : List RVal) (hne : l ≠ [])
    (hs : ∀ r ∈ l, r = RVal.inf) : npMin l = some RVal.inf := by
  cases l with
  | nil => exact absurd rfl hne
  | cons x xs =>
    have hnx : RVal.nan ∉ xs := by
      intro h
      exact absurd (hs RVal.nan (List.mem_cons_of_mem _ h)) (by simp)
    rcases foldl_minR_inf xs hnx with ⟨h1, _⟩ | ⟨m, _, hm, _⟩
    · show some (xs.foldl minR x) = _
      rw [hs x (List.mem_cons_self _ _), h1]
    · exact absurd (hs (RVal.fin m) (List.mem_cons_of_mem _ hm)) (by simp)

theorem brakes_example : brakes cfgBrake initState frameOne := by
  refine ⟨RVal.fin 1, rfl, one_pos, ?_⟩
  show ((1 : ℚ) : ℝ) ≤ threshold cfgBrake ((initState.last_drive_speed : ℚ) : ℝ)
  have h1 : ((initState.last_drive_speed : ℚ) : ℝ) = 1 := by
    norm_num [initState]
  rw [h1]
  simp only [threshold, cfgBrake]
  rw [Real.rpow_one]
  norm_num

/-- Claim C1: `on_lidar_scan` emits an override stop command iff the
tracked speed snapshot is strictly positive and the window minimum
compares at or below `INTERCEPT + MULTIPLIER * EXPONENT ^ speed`; in
particular a non-positive tracked speed never yields an override,
whatever the clearance. -/
theorem c1_decision_rule (cfg : Config) (st : ControllerState)
    (f : ScanFrame) (now : ℚ) :
    (emitsOverride cfg st f now ↔
      0 < st.last_drive_speed ∧
        ∃ m, minClearance cfg f = some m ∧
          rLE m (threshold cfg (st.last_drive_speed : ℝ))) ∧
    (st.last_drive_speed ≤ 0 → ¬ emitsOverride cfg st f now) := by
  have key : emitsOverride cfg st f now ↔ brakes cfg st f := by
    simp only [emitsOverride, publishes]
    exact ⟨fun ⟨m, h, _⟩ => h, fun h => ⟨stop_car now, h, rfl⟩⟩
  simp only [key, brakes]
  constructor
  · exact ⟨fun ⟨m, hm, hs, hle⟩ => ⟨hs, m, hm, hle⟩,
      fun ⟨hs, m, hm, hle⟩ => ⟨m, hm, hs, hle⟩⟩
  · rintro hs ⟨m, hm, hpos, hle⟩
    exact absurd hpos (not_lt.mpr hs)

theorem c1_decision_rule_witness :
    ({ last_drive_command := none, last_drive_speed := -1 } :
        ControllerState).last_drive_speed ≤ 0 ∧
      ¬ emitsOverride cfgBrake
        { last_drive_command := none, last_drive_speed := -1 } frameOne 0 :=
  ⟨by decide,
    (c1_decision_rule cfgBrake
      { last_drive_command := none, last_drive_speed := -1 } frameOne 0).2
      (by decide)⟩

/-- Claim C6: every override stop command that `on_lidar_scan` publishes
has `speed = -0.1`, zero steering angle, zero steering angle velocity,
zero acceleration, zero jerk, and the current timestamp. -/
theorem c6_override_shape (cfg : Config) (st : ControllerState)
    (f : ScanFrame) (now : ℚ) (msg : AckermannDriveStamped)
    (h : publishes cfg st f now (OutputEvent.override msg)) :
    msg.drive.speed = some (-(1 / 10)) ∧ msg.drive.steering_angle = 0 ∧
      msg.drive.steering_angle_velocity = 0 ∧ msg.drive.acceleration = 0 ∧
      msg.drive.jerk = 0 ∧ msg.stamp = now := by
  obtain ⟨-, rfl⟩ := (h : brakes cfg st f ∧ msg = stop_car now)
  exact ⟨rfl, rfl, rfl, rfl, rfl, rfl⟩

theorem c6_override_shape_witness :
    publishes cfgBrake initState frameOne 5 (OutputEvent.override (stop_car 5)) ∧
      (stop_car 5).drive.speed = some (-(1 / 10)) ∧
      (stop_car 5).drive.steering_angle = 0 ∧
      (stop_car 5).drive.steering_angle_velocity = 0 ∧
      (stop_car 5).drive.acceleration = 0 ∧
      (stop_car 5).drive.jerk = 0 ∧ (stop_car 5).stamp = 5 := by
  have hpub : publishes cfgBrake initState frameOne 5
      (OutputEvent.override (stop_car 5)) := ⟨brakes_example, rfl⟩
  exact ⟨hpub, c6_override_shape cfgBrake initState frameOne 5 (stop_car 5) hpub⟩

/-- Claim C7: `on_drive_command` replaces `last_drive_command` and
`last_drive_speed` together exactly when the incoming command is present
with a defined speed, leaves the state untouched otherwise, and publishes
nothing in either case. -/
theorem c7_on_drive_command (st : ControllerState)
    (cmd : Option AckermannDriveStamped) :
    (∀ dc s, cmd = some dc → dc.drive.speed = some s →
      on_drive_command st cmd =
        ({ last_drive_command := some dc, last_drive_speed := s }, [])) ∧
    ((cmd = none ∨ ∃ dc, cmd = some dc ∧ dc.drive.speed = none) →
      on_drive_command st cmd = (st, [])) ∧
    (on_drive_command st cmd).2 = [] := by
  rcases cmd with _ | dc
  · exact ⟨fun dc s h => absurd h (by simp), fun _ => rfl, rfl⟩
  · rcases hs : dc.drive.speed with _ | s
    · refine ⟨?_, ?_, ?_⟩
      · intro dc' s' h1 h2
        rw [Option.some.injEq] at h1
        rw [h1] at hs
        rw [hs] at h2
        cases h2
      · intro _
        simp [on_drive_command, hs]
      · simp [on_drive_command, hs]
    · refine ⟨?_, ?_, ?_⟩
      · intro dc' s' h1 h2
        rw [Option.some.injEq] at h1
        subst h1
        rw [hs] at h2
        rw [Option.some.injEq] at h2
        subst h2
        simp [on_drive_command, hs]
      · rintro (h | ⟨dc', h1, h2⟩)
        · cases h
        · rw [Option.some.injEq] at h1
          subst h1
          rw [hs] at h2
          cases h2
      · simp [on_drive_command, hs]

theorem c7_on_drive_command_witness :
    on_drive_command initState (some cmdThree) =
      ({ last_drive_command := some cmdThree, last_drive_speed := 3 }, []) :=
  (c7_on_drive_command initState (some cmdThree)).1 cmdThree 3 rfl rfl

/-- Claim C8: the danger-threshold curve
`v ↦ INTERCEPT + MULTIPLIER * EXPONENT ^ v` used in the line-88 comparison
is strictly increasing in `v` whenever `EXPONENT > 1` and
`MULTIPLIER > 0`. -/
theorem c8_threshold_strict_mono (cfg : Config) (hm : 0 < cfg.MULTIPLIER)
    (he : 1 < cfg.EXPONENT) : StrictMono (threshold cfg) := by
  intro a b hab
  simp only [threshold]
  have h := (Real.rpow_lt_rpow_left_iff he).mpr hab
  exact add_lt_add_left (mul_lt_mul_of_pos_left h hm) _

theorem c8_threshold_strict_mono_witness :
    0 < cfgBrake.MULTIPLIER ∧ 1 < cfgBrake.EXPONENT ∧
      threshold cfgBrake 0 < threshold cfgBrake 1 := by
  refine ⟨by norm_num [cfgBrake], by norm_num [cfgBrake], ?_⟩
  exact c8_threshold_strict_mono cfgBrake (by norm_num [cfgBrake])
    (by norm_num [cfgBrake]) (by norm_num : (0 : ℝ) < 1)

/-- Claim C9: before any drive command is observed the state holds no
command and a strictly positive default speed of 1, and a sweep evaluated
in that state can already fire the brake. -/
theorem c9_fail_safe_default :
    initState.last_drive_command = none ∧ 0 < initState.last_drive_speed ∧
      ∃ cfg f now msg, publishes cfg initState f now (OutputEvent.override msg) :=
  ⟨rfl, one_pos, cfgBrake, frameOne, 0, stop_car 0, brakes_example, rfl⟩

theorem state_inv_step (st : ControllerState)
    (h : ∀ dc, st.last_drive_command = some dc →
      dc.drive.speed = some st.last_drive_speed) (ev : Event) :
    ∀ dc, (applyEvent st ev).last_drive_command = some dc →
      dc.drive.speed = some (applyEvent st ev).last_drive_speed := by
  cases ev with
  | lidarScan f => exact h
  | driveCmd c =>
    rcases c with _ | dc0
    · exact h
    · rcases hs : dc0.drive.speed with _ | s
      · simpa [applyEvent, on_drive_command, hs] using h
      · intro dc hdc
        simp only [applyEvent, on_drive_command, hs] at hdc ⊢
        rw [Option.some.injEq] at hdc
        rw [← hdc]
        exact hs

/-- Claim C10: whenever `last_drive_command` is present, `last_drive_speed`
equals its drive speed; this holds after any sequence of incoming drive
commands and sweeps, since the drive handler writes both fields together
and the sweep handler never writes the state. -/
theorem c10_speed_invariant (evs : List Event) (dc : AckermannDriveStamped)
    (h : (runEvents evs).last_drive_command = some dc) :
    dc.drive.speed = some (runEvents evs).last_drive_speed := by
  suffices H : ∀ (l : List Event) (st : ControllerState),
      (∀ d, st.last_drive_command = some d →
        d.drive.speed = some st.last_drive_speed) →
      ∀ d, (l.foldl applyEvent st).last_drive_command = some d →
        d.drive.speed = some (l.foldl applyEvent st).last_drive_speed by
    refine H evs initState ?_ dc h
    intro d hd
    exact Option.noConfusion (hd : (none : Option AckermannDriveStamped) = some d)
  intro l
  induction l with
  | nil => intro st hst; exact hst
  | cons e es ih =>
    intro st hst
    exact ih (applyEvent st e) (state_inv_step st hst e)

/-- Claim C2 counterexample: with window `[0, 2)` over the samples
`[2 m, NaN]` the minimum over the finite samples is 2 m, yet the line-79
reduction evaluates to NaN — the NaN sentinel is not excluded and the
brake comparison sees NaN instead of the nearest finite obstacle. -/
theorem c2_counterexample :
    windowRanges cfgSmall frameNan = [RVal.fin 2, RVal.nan] ∧
      minClearance cfgSmall frameNan = some RVal.nan ∧
      minClearance cfgSmall frameNan ≠ some (RVal.fin 2) := by
  refine ⟨rfl, rfl, by decide⟩

/-- Claim C2 amended: when the window contains no NaN sample, the line-79
minimum is the minimum over the finite samples alone — it is a finite
sample of the window and below every finite sample — so an infinity
sentinel is never treated as the nearest obstacle; a NaN sample, however,
propagates through the reduction. -/
theorem c2_amended (cfg : Config) (f : ScanFrame)
    (hnan : RVal.nan ∉ windowRanges cfg f) (q : ℚ)
    (hq : RVal.fin q ∈ windowRanges cfg f) :
    ∃ m, minClearance cfg f = some (RVal.fin m) ∧
      RVal.fin m ∈ windowRanges cfg f ∧
      ∀ p, RVal.fin p ∈ windowRanges cfg f → m ≤ p :=
  npMin_finite (windowRanges cfg f) hnan q hq

theorem c2_amended_witness :
    RVal.nan ∉ windowRanges cfgSmall frameTwo ∧
      RVal.fin 2 ∈ windowRanges cfgSmall frameTwo ∧
      ∃ m, minClearance cfgSmall frameTwo = some (RVal.fin m) ∧
        RVal.fin m ∈ windowRanges cfgSmall frameTwo ∧
        ∀ p, RVal.fin p ∈ windowRanges cfgSmall frameTwo → m ≤ p :=
  ⟨by decide, by decide, c2_amended cfgSmall frameTwo (by decide) 2 (by decide)⟩

/-- Claim C3 counterexample: a sweep of one sample against the window
`[1, 2)` has an empty window slice; evaluation does not complete — the
line-79 `np.min` raises on the zero-size array — and `min_clearance` is
not `+infinity`. -/
theorem c3_counterexample :
    frameOne.ranges.length < cfgShift.SCAN_ENDING_INDEX ∧
      windowRanges cfgShift frameOne = [] ∧
      scanRaises cfgShift frameOne ∧
      minClearance cfgShift frameOne ≠ some RVal.inf := by
  refine ⟨by decide, rfl, rfl, by decide⟩

/-- Claim C3 amended: a nonempty all-sentinel window evaluates without a
runtime error and can never trigger the brake, and when the sentinels are
all infinities the minimum is `+infinity`; an empty window slice, however,
makes the line-79 `np.min` raise instead of completing. -/
theorem c3_amended (cfg : Config) (st : ControllerState) (f : ScanFrame) :
    (windowRanges cfg f = [] → scanRaises cfg f) ∧
    (windowRanges cfg f ≠ [] →
      (∀ r ∈ windowRanges cfg f, r = RVal.inf ∨ r = RVal.nan) →
      ¬ scanRaises cfg f ∧ ¬ brakes cfg st f ∧
        ((∀ r ∈ windowRanges cfg f, r = RVal.inf) →
          minClearance cfg f = some RVal.inf)) := by
  constructor
  · intro h
    show npMin (windowRanges cfg f) = none
    rw [h]
    rfl
  · intro hne hs
    obtain ⟨m, hm, hsent⟩ := npMin_sentinel (windowRanges cfg f) hne hs
    have hm' : minClearance cfg f = some m := hm
    refine ⟨?_, ?_, ?_⟩
    · intro hr
      exact Option.noConfusion
        (hm'.symm.trans (hr : minClearance cfg f = none))
    · intro hb
      simp only [brakes] at hb
      obtain ⟨m', hm2, hpos, hle⟩ := hb
      have hmm : m' = m := by
        have := hm'.symm.trans hm2
        exact (Option.some.injEq _ _ ▸ this).symm
      rcases hsent with hi | hi
      · rw [hmm, hi] at hle
        exact (hle : False)
      · rw [hmm, hi] at hle
        exact (hle : False)
    · intro hinf
      exact npMin_all_inf (windowRanges cfg f) hne hinf

theorem c3_amended_witness :
    windowRanges cfgSmall frameInf ≠ [] ∧
      ¬ scanRaises cfgSmall frameInf ∧ ¬ brakes cfgSmall initState frameInf ∧
      minClearance cfgSmall frameInf = some RVal.inf := by
  have h := (c3_amended cfgSmall initState frameInf).2 (by decide) (by decide)
  exact ⟨by decide, h.1, h.2.1, h.2.2 (by decide)⟩

/-- Claim C4: for valid configured indices the windowed frame has exactly
the samples `ranges[start:end]` (same length, same elements position by
position), `angle_min` and `angle_max` recomputed from the original
`angle_min` by `start` and `end - 1` increments, `angle_increment`
unchanged, and hence the angular span `angle_increment * (end - start - 1)`. -/
theorem c4_window_extractor (cfg : Config) (f : ScanFrame)
    (h1 : cfg.SCAN_STARTING_INDEX < cfg.SCAN_ENDING_INDEX)
    (h2 : cfg.SCAN_ENDING_INDEX ≤ f.ranges.length) :
    (get_collision_zone_data cfg f).ranges.length
        = cfg.SCAN_ENDING_INDEX - cfg.SCAN_STARTING_INDEX ∧
    (∀ i, i < cfg.SCAN_ENDING_INDEX - cfg.SCAN_STARTING_INDEX →
      ((get_collision_zone_data cfg f).ranges)[i]?
        = f.ranges[cfg.SCAN_STARTING_INDEX + i]?) ∧
    (get_collision_zone_data cfg f).angle_min
        = f.angle_min + f.angle_increment * (cfg.SCAN_STARTING_INDEX : ℚ) ∧
    (get_collision_zone_data cfg f).angle_max
        = f.angle_min + f.angle_increment * ((cfg.SCAN_ENDING_INDEX : ℚ) - 1) ∧
    (get_collision_zone_data cfg f).angle_increment = f.angle_increment ∧
    (get_collision_zone_data cfg f).angle_max
          - (get_collision_zone_data cfg f).angle_min
        = f.angle_increment
            * ((cfg.SCAN_ENDING_INDEX : ℚ) - (cfg.SCAN_STARTING_INDEX : ℚ) - 1) := by
  refine ⟨?_, ?_, rfl, rfl, rfl, ?_⟩
  · show ((f.ranges.drop cfg.SCAN_STARTING_INDEX).take
        (cfg.SCAN_ENDING_INDEX - cfg.SCAN_STARTING_INDEX)).length = _
    rw [List.length_take, List.length_drop]
    exact Nat.min_eq_left (Nat.sub_le_sub_right h2 _)
  · intro i hi
    show ((f.ranges.drop cfg.SCAN_STARTING_INDEX).take
        (cfg.SCAN_ENDING_INDEX - cfg.SCAN_STARTING_INDEX))[i]? = _
    rw [List.getElem?_take, if_pos hi, List.getElem?_drop]
  · show (f.angle_min + f.angle_increment * ((cfg.SCAN_ENDING_INDEX : ℚ) - 1))
        - (f.angle_min + f.angle_increment * (cfg.SCAN_STARTING_INDEX : ℚ)) = _
    ring

theorem c4_window_extractor_witness :
    cfgShift.SCAN_STARTING_INDEX < cfgShift.SCAN_ENDING_INDEX ∧
      cfgShift.SCAN_ENDING_INDEX ≤ frameTwo.ranges.length ∧
      ((get_collision_zone_data cfgShift frameTwo).ranges.length
          = cfgShift.SCAN_ENDING_INDEX - cfgShift.SCAN_STARTING_INDEX ∧
        (∀ i, i < cfgShift.SCAN_ENDING_INDEX - cfgShift.SCAN_STARTING_INDEX →
          ((get_collision_zone_data cfgShift frameTwo).ranges)[i]?
            = frameTwo.ranges[cfgShift.SCAN_STARTING_INDEX + i]?) ∧
        (get_collision_zone_data cfgShift frameTwo).angle_min
            = frameTwo.angle_min
                + frameTwo.angle_increment * (cfgShift.SCAN_STARTING_INDEX : ℚ) ∧
        (get_collision_zone_data cfgShift frameTwo).angle_max
            = frameTwo.angle_min
                + frameTwo.angle_increment * ((cfgShift.SCAN_ENDING_INDEX : ℚ) - 1) ∧
        (get_collision_zone_data cfgShift frameTwo).angle_increment
            = frameTwo.angle_increment ∧
        (get_collision_zone_data cfgShift frameTwo).angle_max
              - (get_collision_zone_data cfgShift frameTwo).angle_min
            = frameTwo.angle_increment
                * ((cfgShift.SCAN_ENDING_INDEX : ℚ)
                    - (cfgShift.SCAN_STARTING_INDEX : ℚ) - 1)) :=
  ⟨by decide, by decide, c4_window_extractor cfgShift frameTwo (by decide) (by decide)⟩

/-- Claim C5 counterexample: extraction with window `[1, 2)` over the
frame with samples `[2 m, NaN]` leaves the caller's frame changed — in the
source the function assigns to the fields of its own argument and returns
that same object, so after the call the caller's frame has the sliced
samples and shifted angles, not its pre-call values. -/
theorem c5_counterexample :
    callerFrameAfterExtract cfgShift frameNan ≠ frameNan := by
  decide

/-- Claim C5 amended: the extractor mutates the caller's frame in place:
after the call the caller's frame is exactly the windowed frame the call
returned, and whenever the configured start index is positive and within
the sweep, that frame differs from the pre-call frame. -/
theorem c5_amended (cfg : Config) (f : ScanFrame) :
    callerFrameAfterExtract cfg f = get_collision_zone_data cfg f ∧
    (0 < cfg.SCAN_STARTING_INDEX → cfg.SCAN_STARTING_INDEX < f.ranges.length →
      callerFrameAfterExtract cfg f ≠ f) := by
  refine ⟨rfl, ?_⟩
  intro hpos hlt heq
  have hlen : (callerFrameAfterExtract cfg f).ranges.length
      = f.ranges.length := by rw [heq]
  have hlen2 : (callerFrameAfterExtract cfg f).ranges.length
      < f.ranges.length := by
    show ((f.ranges.drop cfg.SCAN_STARTING_INDEX).take
        (cfg.SCAN_ENDING_INDEX - cfg.SCAN_STARTING_INDEX)).length < _
    rw [List.length_take, List.length_drop]
    calc min (cfg.SCAN_ENDING_INDEX - cfg.SCAN_STARTING_INDEX)
          (f.ranges.length - cfg.SCAN_STARTING_INDEX)
        ≤ f.ranges.length - cfg.SCAN_STARTING_INDEX := min_le_right _ _
      _ < f.ranges.length :=
        Nat.sub_lt (Nat.lt_of_le_of_lt (Nat.zero_le _) hlt) hpos
  exact absurd hlen (Nat.ne_of_lt hlen2)

theorem c5_amended_witness :
    0 < cfgShift.SCAN_STARTING_INDEX ∧
      cfgShift.SCAN_STARTING_INDEX < frameTwo.ranges.length ∧
      callerFrameAfterExtract cfgShift frameTwo ≠ frameTwo :=
  ⟨by decide, by decide, (c5_amended cfgShift frameTwo).2 (by decide) (by decide)⟩

theorem c10_speed_invariant_witness :
    (runEvents [Event.driveCmd (some cmdThree)]).last_drive_command
        = some cmdThree ∧
      cmdThree.drive.speed =
        some (runEvents [Event.driveCmd (some cmdThree)]).last_drive_speed := by
  have h : (runEvents [Event.driveCmd (some cmdThree)]).last_drive_command
      = some cmdThree := rfl
  exact ⟨h, c10_speed_invariant [Event.driveCmd (some cmdThree)] cmdThree h⟩
